import Mathlib

/-!
A verification development for the tiny job-control shell in `src/tsh.c`.

The shell's data model (job list), its signal handlers (`sigchld_handler`,
`sigint_handler`, `sigtstp_handler`), the external-command launch path and the
`bg`/`fg` built-ins of `eval` are embedded shallowly below.  Pure computations
(argument parsing, status dispatch, message formatting) become Lean functions;
the stateful parts become explicit state passing over the job table, and the
temporal claims (signal-mask ordering, the foreground-wait protocol) are
settled over event traces generated from the corresponding code paths.
-/

namespace Tsh

/-- Job states, after `tsh_helper.h`'s `job_state` values `FG`, `BG`, `ST`.
The empty-slot marker `UNDEF` is represented by absence from the list model. -/
inductive JState
  | FG
  | BG
  | ST
deriving DecidableEq, Repr

/-- One tracked child process: job id, process id, state and the original
command line, as in the spec's Job data model (spec section 3). -/
structure Job where
  jid : Nat
  pid : Nat
  state : JState
  cmdline : String
deriving DecidableEq, Repr

/-- The job list.  `tsh_helper.c` is not part of this repository's sources, so
the table and its operations are modelled from the spec (sections 3 and 4.1):
an indexed collection of Jobs, with absence standing for `UNDEF` slots. -/
abbrev JobTable := List Job

/-- Modelled from the spec: `lookupByProcessId(processId) -> id | none`
(`job_from_pid` in the helper API), with the helper's `0` sentinel for
"no such job". -/
def job_from_pid (jt : JobTable) (pid : Nat) : Nat :=
  ((jt.find? fun j => j.pid == pid).map Job.jid).getD 0

/-- Modelled from the spec: `lookupByJobId(id) -> processId | none`
(`job_get_pid`), with `0` for "no such job". -/
def job_get_pid (jt : JobTable) (jid : Nat) : Nat :=
  ((jt.find? fun j => j.jid == jid).map Job.pid).getD 0

/-- Modelled from the spec: the stored command line of a job
(`job_get_cmdline`). -/
def job_get_cmdline (jt : JobTable) (jid : Nat) : String :=
  ((jt.find? fun j => j.jid == jid).map Job.cmdline).getD ""

/-- Modelled from the spec: `exists(id) -> bool` (`job_exists`). -/
def job_exists (jt : JobTable) (jid : Nat) : Bool :=
  jt.any fun j => j.jid == jid

/-- Modelled from the spec: `setState(id, state)`, a no-op when `id` is not a
live job (`job_set_state`). -/
def job_set_state (jt : JobTable) (jid : Nat) (s : JState) : JobTable :=
  jt.map fun j => if j.jid == jid then { j with state := s } else j

/-- Modelled from the spec: `remove(id)`, a no-op when `id` is absent
(`delete_job`). -/
def delete_job (jt : JobTable) (jid : Nat) : JobTable :=
  jt.filter fun j => j.jid != jid

/-- Modelled from the spec: `foregroundJobId() -> id | 0` (`fg_job`), the
unique Foreground job or the `0` sentinel. -/
def fg_job (jt : JobTable) : Nat :=
  ((jt.find? fun j => j.state == JState.FG).map Job.jid).getD 0

/-- Signal number of SIGINT on the target platform (`kill(-pid, SIGINT)` at
tsh.c:432). -/
def SIGINT : Nat := 2

/-- Signal number of SIGCONT (`kill(-pid, SIGCONT)` at tsh.c:332 and 368). -/
def SIGCONT : Nat := 18

/-- Signal number of SIGTSTP (`kill(-pid, SIGTSTP)` at tsh.c:455). -/
def SIGTSTP : Nat := 20

/-- A reaped wait status, covering the four cases `WIFEXITED`, `WIFSIGNALED`,
`WIFSTOPPED` and `WIFCONTINUED` dispatched on in `sigchld_handler`
(tsh.c:398-410). -/
inductive WStatus
  | exited (code : Nat)
  | signaled (sig : Nat)
  | stopped (sig : Nat)
  | continued
deriving DecidableEq, Repr

/-- The option bits passed to `waitpid`. -/
structure WaitOpts where
  wnohang : Bool
  wuntraced : Bool
  wcontinued : Bool
deriving DecidableEq, Repr

/-- The options `sigchld_handler` actually passes: `WNOHANG | WUNTRACED`
(tsh.c:394).  `WCONTINUED` is not among them. -/
def codeWaitOpts : WaitOpts := ⟨true, true, false⟩

/-- Whether `waitpid` with options `o` reports a child whose status change is
`s`: exits and signal terminations are always reported, stops only under
`WUNTRACED`, continuations only under `WCONTINUED` (POSIX `waitpid`). -/
def reportedB (o : WaitOpts) : WStatus → Bool
  | .stopped _ => o.wuntraced
  | .continued => o.wcontinued
  | _ => true

/-- Primitive actions of the shell's main line and handlers, used to state the
temporal claims about signal-mask ordering. -/
inductive Event
  | block
  | restore
  | jobAccess
  | waitpidCall
  | kill
  | print
  | fork
  | suspend
  | addJob (st : JState)
deriving DecidableEq, Repr

/-- Result of running one signal handler: signals sent, lines printed, the job
table afterwards, the final `errno`, and the event trace of the handler body. -/
structure HandlerRun where
  kills : List (Int × Nat)
  out : List String
  jt : JobTable
  errno : Nat
  trace : List Event
deriving DecidableEq, Repr

/-- One arm of the status dispatch in `sigchld_handler`'s reap loop
(tsh.c:397-410): table update, lines printed, and job-table accesses made.
`job_from_pid` at tsh.c:397 is the first access of every arm. -/
def chldStatusUpd (jt : JobTable) (p : Nat) : WStatus → JobTable × List String × List Event
  | .stopped sig =>
      let jid := job_from_pid jt p
      (job_set_state jt jid JState.ST,
       [s!"Job [{jid}] ({p}) stopped by signal {sig}"],
       [Event.jobAccess, Event.jobAccess, Event.print])
  | .signaled sig =>
      let jid := job_from_pid jt p
      (delete_job jt jid,
       [s!"Job [{jid}] ({p}) terminated by signal {sig}"],
       [Event.jobAccess, Event.print, Event.jobAccess])
  | .continued =>
      let jid := job_from_pid jt p
      (job_set_state jt jid JState.FG, [], [Event.jobAccess, Event.jobAccess])
  | .exited _ =>
      let jid := job_from_pid jt p
      (delete_job jt jid, [], [Event.jobAccess, Event.jobAccess])

/-- The reap loop of `sigchld_handler` (tsh.c:394-412) over the list of
statuses `waitpid` will report, in order: each iteration is one successful
`waitpid` call followed by `sigprocmask(SIG_BLOCK, ...)`, the status dispatch,
and `sigprocmask(SIG_SETMASK, &prev_all, ...)`; the loop ends with the
`waitpid` call that returns no child. -/
def sigchld_reap (jt : JobTable) : List (Nat × WStatus) → JobTable × List String × List Event
  | [] => (jt, [], [Event.waitpidCall])
  | (p, s) :: rest =>
      let u := chldStatusUpd jt p s
      let r := sigchld_reap u.1 rest
      (r.1, u.2.1 ++ r.2.1,
        Event.waitpidCall :: Event.block :: (u.2.2 ++ (Event.restore :: r.2.2)))

/-- The whole `sigchld_handler` (tsh.c:386-414): saves `errno`, reaps every
pending status change that `waitpid(-1, ..., WNOHANG | WUNTRACED)` reports
(unreported changes, e.g. continuations, stay pending and unobserved), and
restores the saved `errno` on return.  `waitpidErrno` is whatever value the
final `waitpid` call leaves in `errno` while the handler runs. -/
def sigchld_handler_run (errno0 waitpidErrno : Nat) (jt : JobTable)
    (pending : List (Nat × WStatus)) : HandlerRun :=
  let olderrno := errno0
  let reaped := sigchld_reap jt (pending.filter fun e => reportedB codeWaitOpts e.2)
  let errnoInsideLoop := waitpidErrno
  let _ := errnoInsideLoop
  { kills := [], out := reaped.2.1, jt := reaped.1,
    errno := olderrno, trace := reaped.2.2 }

/-- The `sigint_handler` (tsh.c:420-436): save `errno`, block all signals,
read `fg_job`; if a foreground job exists, read its pid and forward `SIGINT`
to its whole process group via `kill(-pid, SIGINT)`; restore the mask and
`errno`. -/
def sigint_handler_run (errno0 : Nat) (jt : JobTable) : HandlerRun :=
  let olderrno := errno0
  let jid := fg_job jt
  if jid ≠ 0 then
    { kills := [(-(job_get_pid jt jid : Int), SIGINT)], out := [], jt := jt,
      errno := olderrno,
      trace := [Event.block, Event.jobAccess, Event.jobAccess, Event.kill, Event.restore] }
  else
    { kills := [], out := [], jt := jt, errno := olderrno,
      trace := [Event.block, Event.jobAccess, Event.restore] }

/-- The `sigtstp_handler` (tsh.c:442-459), symmetric to `sigint_handler` with
`SIGTSTP` forwarded instead. -/
def sigtstp_handler_run (errno0 : Nat) (jt : JobTable) : HandlerRun :=
  let olderrno := errno0
  let jid := fg_job jt
  if jid ≠ 0 then
    { kills := [(-(job_get_pid jt jid : Int), SIGTSTP)], out := [], jt := jt,
      errno := olderrno,
      trace := [Event.block, Event.jobAccess, Event.jobAccess, Event.kill, Event.restore] }
  else
    { kills := [], out := [], jt := jt, errno := olderrno,
      trace := [Event.block, Event.jobAccess, Event.restore] }

/-- POSIX permission bit `S_IRUSR` (owner read, octal 400). -/
def S_IRUSR : Nat := 0o400

/-- POSIX permission bit `S_IWUSR` (owner write, octal 200). -/
def S_IWUSR : Nat := 0o200

/-- POSIX permission bit `S_IRGRP` (group read, octal 40). -/
def S_IRGRP : Nat := 0o40

/-- POSIX permission bit `S_IWGRP` (group write, octal 20). -/
def S_IWGRP : Nat := 0o20

/-- POSIX permission bit `S_IROTH` (other read, octal 4). -/
def S_IROTH : Nat := 0o4

/-- POSIX permission bit `S_IWOTH` (other write, octal 2). -/
def S_IWOTH : Nat := 0o2

/-- The `MODE` macro of tsh.c:55, the permission argument of both
output-redirection `open` calls (tsh.c:224 and tsh.c:278):
`S_IRUSR | S_IWUSR | S_IRGRP | S_IROTH`. -/
def MODE : Nat := S_IRUSR ||| S_IWUSR ||| S_IRGRP ||| S_IROTH

/-- POSIX open flag `O_WRONLY`. -/
def O_WRONLY : Nat := 0o1

/-- POSIX open flag `O_CREAT` (octal 100 on Linux). -/
def O_CREAT : Nat := 0o100

/-- POSIX open flag `O_TRUNC` (octal 1000 on Linux). -/
def O_TRUNC : Nat := 0o1000

/-- The flag argument of both output-redirection `open` calls
(`O_CREAT | O_TRUNC | O_WRONLY`, tsh.c:224 and tsh.c:278). -/
def outfile_open_flags : Nat := O_CREAT ||| O_TRUNC ||| O_WRONLY

/-- Outcome of a system call in the child's launch path: success, or failure
with the `errno` value the call set. -/
inductive SysRes
  | ok
  | err (errno : Nat)
deriving DecidableEq, Repr

/-- The diagnostic lines the child prints on a failed `open` or `execve`
(tsh.c:212-217, 229-234, 241-246): one line when `errno` is ENOENT (2) or
EACCES (13), and nothing otherwise. -/
def errno_msgs (name : String) (e : Nat) : List String :=
  if e = 2 then [s!"{name}: No such file or directory"]
  else if e = 13 then [s!"{name}: Permission denied"]
  else []

/-- What the child observably did: lines printed, `_exit` status if it exited
in the launch path, and whether it reached a successful `execve`. -/
structure ChildRun where
  out : List String
  exited : Option Nat
  execed : Bool
deriving DecidableEq, Repr

/-- The child's launch path in `eval` (tsh.c:204-249): input redirection, then
output redirection, then `execve`; each failure prints `errno_msgs` and calls
`_exit(0)` without running the target.  `inRes`/`outRes`/`execRes` are the
outcomes of the corresponding system calls (irrelevant when the respective
redirection is absent). -/
def child_run (infile outfile : Option String) (prog : String)
    (inRes outRes execRes : SysRes) : ChildRun :=
  match infile, inRes with
  | some f, .err e => ⟨errno_msgs f e, some 0, false⟩
  | _, _ =>
    match outfile, outRes with
    | some f, .err e => ⟨errno_msgs f e, some 0, false⟩
    | _, _ =>
      match execRes with
      | .err e => ⟨errno_msgs prog e, some 0, false⟩
      | .ok => ⟨[], none, true⟩

/-- Accumulator loop of the `strtol` model: the value of the longest leading
run of decimal digits, `0` when there is none. -/
def strtolAux : List Char → Nat → Nat
  | [], acc => acc
  | c :: r, acc => if c.isDigit then strtolAux r (acc * 10 + (c.toNat - 48)) else acc

/-- Largest value of a C `long` (64 bits on the target platform). -/
def LONG_MAX : Int := 2 ^ 63 - 1

/-- Smallest value of a C `long`. -/
def LONG_MIN : Int := -(2 ^ 63)

/-- The clamping `strtol` applies to an out-of-range value (it returns
`LONG_MAX`/`LONG_MIN` and sets `errno` to `ERANGE`, which the shell never
reads). -/
def clampLong (v : Int) : Int :=
  if v < LONG_MIN then LONG_MIN
  else if LONG_MAX < v then LONG_MAX
  else v

/-- The value `strtol(s, NULL, 10)` computes for the `bg`/`fg` argument
tokens: an optional single leading `+` or `-` sign, then the longest leading
run of decimal digits (value `0` when the run is empty), clamped to the
`long` range.  Leading whitespace never occurs in these tokens — the
tokenizer splits the command line on whitespace. -/
def strtol (a : List Char) : Int :=
  match a with
  | '+' :: r => clampLong (Int.ofNat (strtolAux r 0))
  | '-' :: r => clampLong (-(Int.ofNat (strtolAux r 0)))
  | _ => clampLong (Int.ofNat (strtolAux a 0))

/-- Conversion of a C `long` to a C `int` — the type of `pid_t` and `jid_t`,
which the shell assigns `strtol`'s result to (tsh.c:314/323/351/360):
two's-complement truncation modulo `2 ^ 32`, landing in `[-2^31, 2^31)`. -/
def long_to_int (v : Int) : Int := Int.bmod v (2 ^ 32)

/-- Modelled from the spec: `exists(id)` applied to a C `jid_t` (int) value.
Stored job ids are natural numbers, so negative values match no job. -/
def job_exists_int (jt : JobTable) (jid : Int) : Bool :=
  jt.any fun j => (j.jid : Int) == jid

/-- Modelled from the spec: `lookupByProcessId` applied to a C `pid_t` (int)
value, with the `0` sentinel for "no such job". -/
def job_from_pid_int (jt : JobTable) (pid : Int) : Nat :=
  ((jt.find? fun j => (j.pid : Int) == pid).map Job.jid).getD 0

/-- Result of running the `bg`/`fg` built-in body once: lines printed, signals
sent (`kill` target and signal number), the job table afterwards, and whether
the command went on to enter the foreground-wait protocol. -/
structure BgFgRes where
  out : List String
  kills : List (Int × Nat)
  jt : JobTable
  wait : Bool
deriving DecidableEq, Repr

/-- The command word, used in the two error messages (tsh.c:302/308 versus
tsh.c:339/345). -/
def bgfgName (isBg : Bool) : String := if isBg then "bg" else "fg"

/-- The success path shared by `bg` (tsh.c:331-333) and `fg` (tsh.c:368-372):
`bg` prints the resume announcement, sends `SIGCONT` to the whole process
group via `kill(-pid, SIGCONT)` and sets the state to `BG`; `fg` sends
`SIGCONT` the same way, sets the state to `FG` and enters the foreground-wait
protocol. -/
def bgfg_go (isBg : Bool) (jid pid : Nat) (jt : JobTable) : BgFgRes :=
  if isBg then
    let c := job_get_cmdline jt jid
    { out := [s!"[{jid}] ({pid}) {c}"],
      kills := [(-(pid : Int), SIGCONT)],
      jt := job_set_state jt jid JState.BG, wait := false }
  else
    { out := [], kills := [(-(pid : Int), SIGCONT)],
      jt := job_set_state jt jid JState.FG, wait := true }

/-- The `%`-argument branch (tsh.c:312-320 and 349-357): `strtol` on the text
after `%`, truncated to the `jid_t` (int) range, gives the job id; an id with
no live job prints `<arg>: No such job`; otherwise the pid is read from the
table and the command proceeds.  (A matching id equals a stored natural
number, so `Int.toNat` is exact on the success path.) -/
def resolve_bgfg_jid (isBg : Bool) (arg rest : List Char) (jt : JobTable) : BgFgRes :=
  let jid := long_to_int (strtol rest)
  if job_exists_int jt jid then
    bgfg_go isBg jid.toNat (job_get_pid jt jid.toNat) jt
  else
    let a := String.mk arg
    { out := [s!"{a}: No such job"], kills := [], jt := jt, wait := false }

/-- The digit-argument branch (tsh.c:321-330 and 358-367): `strtol` on the
whole token, truncated to the `pid_t` (int) range, gives the pid;
`job_from_pid` the job id; a pid with no live job prints `<arg>: No such
job`; otherwise the command proceeds.  (A matching pid equals a stored
natural number, so `Int.toNat` is exact on the success path.) -/
def resolve_bgfg_pid (isBg : Bool) (arg : List Char) (jt : JobTable) : BgFgRes :=
  let pid := long_to_int (strtol arg)
  let jid := job_from_pid_int jt pid
  if job_exists jt jid then bgfg_go isBg jid pid.toNat jt
  else
    let a := String.mk arg
    { out := [s!"{a}: No such job"], kills := [], jt := jt, wait := false }

/-- The `bg`/`fg` built-in body of `eval` (tsh.c:299-374): with `argc == 1`
the argument is missing; otherwise the shape check `arg[0] != '%' &&
!isdigit(arg[0])` (tsh.c:307/344) rejects the token, reading only its first
character (an empty token starts with the terminating NUL, which is neither);
then the `%` or digit branch resolves the job.  The `sigprocmask` bracketing
of the body touches no job state and is elided here. -/
def builtin_bgfg (isBg : Bool) (argc : Nat) (arg : List Char) (jt : JobTable) : BgFgRes :=
  if argc = 1 then
    let n := bgfgName isBg
    { out := [s!"{n} command requires PID or %jobid argument"],
      kills := [], jt := jt, wait := false }
  else
    match arg with
    | [] =>
        let n := bgfgName isBg
        { out := [s!"{n}: argument must be a PID or %jobid"],
          kills := [], jt := jt, wait := false }
    | c :: r =>
        if !(c == '%') && !c.isDigit then
          let n := bgfgName isBg
          { out := [s!"{n}: argument must be a PID or %jobid"],
            kills := [], jt := jt, wait := false }
        else if c == '%' then resolve_bgfg_jid isBg (c :: r) r jt
        else resolve_bgfg_pid isBg (c :: r) jt

/-- Shape of a `bg`/`fg` argument under the amended claim: missing, malformed,
or resolved through a job id (after `%`) or a pid, each a C int value. -/
inductive ArgClass
  | missing
  | badShape
  | byJid (jid : Int)
  | byPid (pid : Int)
deriving DecidableEq, Repr

/-- Amended claim C7, argument classification, following the amended words: a
missing argument is a token count of 1; otherwise only the FIRST character
decides the shape — `%` starts a job-id argument, a digit starts a pid
argument, and anything else (including an empty token) is malformed.  The id
or pid is the argument text (after the `%` for job ids) parsed as `strtol`
parses a base-10 `long` — optional sign, longest digit run, clamped to the
`long` range — truncated to the C int range. -/
def classifyBgFgArg (argc : Nat) (arg : List Char) : ArgClass :=
  if argc = 1 then ArgClass.missing
  else
    match arg with
    | [] => ArgClass.badShape
    | c :: r =>
        if c == '%' then ArgClass.byJid (long_to_int (strtol r))
        else if c.isDigit then ArgClass.byPid (long_to_int (strtol (c :: r)))
        else ArgClass.badShape

/-- Amended claim C7 as a function, following its words: a missing or
malformed argument yields an error message and no state change; an argument
whose parsed int value identifies no live job yields `No such job` and no
state change; otherwise `SIGCONT` is sent to the job's entire process group
(negative pid), the job's state becomes Background for `bg` (with the resume
announcement printed) or Foreground for `fg`, and `fg` alone then enters the
foreground-wait protocol. -/
def bgfg_amended_spec (isBg : Bool) (argc : Nat) (arg : List Char) (jt : JobTable) : BgFgRes :=
  match classifyBgFgArg argc arg with
  | ArgClass.missing =>
      let n := bgfgName isBg
      { out := [s!"{n} command requires PID or %jobid argument"],
        kills := [], jt := jt, wait := false }
  | ArgClass.badShape =>
      let n := bgfgName isBg
      { out := [s!"{n}: argument must be a PID or %jobid"],
        kills := [], jt := jt, wait := false }
  | ArgClass.byJid jid =>
      if job_exists_int jt jid then
        let jidN := jid.toNat
        let pid := job_get_pid jt jidN
        let c := job_get_cmdline jt jidN
        { out := if isBg then [s!"[{jidN}] ({pid}) {c}"] else [],
          kills := [(-(pid : Int), SIGCONT)],
          jt := job_set_state jt jidN (if isBg then JState.BG else JState.FG),
          wait := !isBg }
      else
        let a := String.mk arg
        { out := [s!"{a}: No such job"], kills := [], jt := jt, wait := false }
  | ArgClass.byPid pid =>
      let jid := job_from_pid_int jt pid
      if job_exists jt jid then
        let c := job_get_cmdline jt jid
        { out := if isBg then [s!"[{jid}] ({pid.toNat}) {c}"] else [],
          kills := [(-(pid.toNat : Int), SIGCONT)],
          jt := job_set_state jt jid (if isBg then JState.BG else JState.FG),
          wait := !isBg }
      else
        let a := String.mk arg
        { out := [s!"{a}: No such job"], kills := [], jt := jt, wait := false }

/-- The loop condition of the foreground-wait protocol
(`(fg_job() != 0) && (pid == job_get_pid(fg_job()))`, tsh.c:254 and 370). -/
def fgCond (pid : Nat) (jt : JobTable) : Bool :=
  (fg_job jt != 0) && (pid == job_get_pid jt (fg_job jt))

/-- One signal delivery observed while the shell sleeps in `sigsuspend`: a
`SIGCHLD` carrying the currently pending child status changes, or a terminal
`SIGINT`/`SIGTSTP`. -/
inductive Delivery
  | chld (pending : List (Nat × WStatus))
  | intr
  | tstp
deriving DecidableEq, Repr

/-- Effect of one delivery on the job table: `sigchld_handler` reaps and
updates the table; `sigint_handler` and `sigtstp_handler` only forward a
signal and leave the table unchanged. -/
def applyDelivery (jt : JobTable) : Delivery → JobTable
  | .chld pending => (sigchld_handler_run 0 0 jt pending).jt
  | .intr => (sigint_handler_run 0 jt).jt
  | .tstp => (sigtstp_handler_run 0 jt).jt

/-- The foreground-wait loop (tsh.c:254-257 after launching a foreground
command, and tsh.c:370-372 in the `fg` built-in): while `fgCond` holds, one
`sigsuspend(&prev_all)` atomically unblocks signals and sleeps until a
delivery arrives, whose handler runs and the condition is re-checked under the
re-established block.  `env` is the sequence of deliveries that will arrive;
`none` means every delivery was consumed with the condition still true — the
loop is still suspended, it has not returned. -/
def fg_wait_loop (pid : Nat) : List Delivery → JobTable → Option JobTable
  | [], jt => if fgCond pid jt then none else some jt
  | d :: env, jt =>
      if fgCond pid jt then fg_wait_loop pid env (applyDelivery jt d)
      else some jt

/-- The whole foreground-wait protocol including the mask epilogue
(`sigprocmask(SIG_SETMASK, &prev_all, NULL)`, tsh.c:258 and 373): on exit from
the loop the mask saved before blocking is restored. -/
def fg_wait_phase (pid : Nat) (env : List Delivery) (jt : JobTable)
    (prev : Bool) : Option (JobTable × Bool) :=
  (fg_wait_loop pid env jt).map fun jtf => (jtf, prev)

/-- The condition checks and suspensions of `n` iterations of the
foreground-wait loop, as events: each iteration reads the table (tsh.c:254)
and then suspends; the final read is the check that exits the loop. -/
def fgWaitTraceIter : Nat → List Event
  | 0 => [Event.jobAccess]
  | n + 1 => Event.jobAccess :: Event.suspend :: fgWaitTraceIter n

/-- The parent-side event trace of `eval` for an external command
(tsh.c:200-268): block all signals (tsh.c:203), fork (tsh.c:204); then for a
foreground command register the job as `FG` (tsh.c:253) and run the wait loop
before restoring the mask (tsh.c:258); for a background command re-block
(tsh.c:262, the mask is already fully blocked), register as `BG` (tsh.c:263),
read the job id (tsh.c:264), restore the mask (tsh.c:265) and print the
announcement (tsh.c:266). -/
def evalExtParentTrace (isBg : Bool) (n : Nat) : List Event :=
  if isBg then
    [Event.block, Event.fork, Event.block, Event.addJob JState.BG,
     Event.jobAccess, Event.restore, Event.print]
  else
    Event.block :: Event.fork :: Event.addJob JState.FG ::
      (fgWaitTraceIter n ++ [Event.restore])

/-- Whether an event makes signal delivery possible again: restoring the saved
mask, or the atomic unblock inside `sigsuspend`. -/
def isUnblock : Event → Bool
  | .restore => true
  | .suspend => true
  | _ => false

/-- The prefix of a trace before signals are first unblocked. -/
def beforeUnblock (t : List Event) : List Event :=
  t.takeWhile fun e => !isUnblock e

/-- Whether a trace contains no unblocking event at all. -/
def noUnblock (t : List Event) : Bool :=
  t.all fun e => !isUnblock e

/-- The suffix of a trace after the `fork` event. -/
def afterFork : List Event → List Event
  | [] => []
  | Event.fork :: r => r
  | _ :: r => afterFork r

/-- The prefix of a trace before the first job registration. -/
def beforeAdd : List Event → List Event
  | [] => []
  | Event.addJob _ :: _ => []
  | e :: r => e :: beforeAdd r

/-- Fold of a trace's mask effects: `block` fully blocks, `restore` re-installs
the mask saved at entry (`entry`), checking that every `jobAccess` happens
while fully blocked. -/
def tracesBlockedOk (entry : Bool) : Bool → List Event → Bool
  | _, [] => true
  | _, Event.block :: r => tracesBlockedOk entry true r
  | _, Event.restore :: r => tracesBlockedOk entry entry r
  | cur, Event.jobAccess :: r => cur && tracesBlockedOk entry cur r
  | cur, _ :: r => tracesBlockedOk entry cur r

/-- The mask state after a trace runs, starting from `cur`, where `restore`
re-installs the mask saved at entry. -/
def finalMask (entry : Bool) : Bool → List Event → Bool
  | cur, [] => cur
  | _, Event.block :: r => finalMask entry true r
  | _, Event.restore :: r => finalMask entry entry r
  | cur, _ :: r => finalMask entry cur r

/-- Well-formedness of a job table, from the spec's JobTable invariants
(spec section 3): at most one Foreground job, pairwise distinct job ids, and
job ids positive (`0` is the "no job" sentinel). -/
def wfJT (jt : JobTable) : Prop :=
  jt.countP (fun j => j.state == JState.FG) ≤ 1 ∧
    (jt.map Job.jid).Nodup ∧ ∀ j ∈ jt, 0 < j.jid

instance : DecidablePred wfJT := fun jt => by
  unfold wfJT; infer_instance

/-- A demonstration table: job 1 is the process 12, currently stopped. -/
def jtPid12 : JobTable := [⟨1, 12, JState.ST, "sleep 5"⟩]

/-- A demonstration table: job 1 is the process 42, currently stopped. -/
def jtStopped : JobTable := [⟨1, 42, JState.ST, "sleep 5"⟩]

/-- A demonstration table: job 5 is the process 99, currently stopped. -/
def jtJid5 : JobTable := [⟨5, 99, JState.ST, "sleep 9"⟩]

/-- A demonstration table: job 1 is the process 42, running in the
foreground. -/
def jtFG42 : JobTable := [⟨1, 42, JState.FG, "sleep 5"⟩]

/-! Helper lemmas shared by the claim theorems. -/

/-- A list with at most one element satisfying `p` has equal `p`-members. -/
theorem countP_le_one_unique {α : Type} (p : α → Bool) :
    ∀ (l : List α), l.countP p ≤ 1 →
      ∀ a, a ∈ l → p a = true → ∀ b, b ∈ l → p b = true → a = b := by
  intro l
  induction l with
  | nil => intro _ a ha; cases ha
  | cons x t ih =>
    intro hc a ha hpa b hb hpb
    rw [List.countP_cons] at hc
    by_cases hx : p x = true
    · rw [hx] at hc
      simp only [if_true] at hc
      have hz : t.countP p = 0 := by omega
      have hnone : ∀ y ∈ t, ¬ p y = true := List.countP_eq_zero.mp hz
      cases List.mem_cons.mp ha with
      | inl h =>
        cases List.mem_cons.mp hb with
        | inl h2 => rw [h, h2]
        | inr h2 => exact absurd hpb (hnone b h2)
      | inr h => exact absurd hpa (hnone a h)
    · have hc' : t.countP p ≤ 1 := by
        rw [if_neg hx] at hc
        omega
      have ha' : a ∈ t := by
        cases List.mem_cons.mp ha with
        | inl h => rw [h] at hpa; exact absurd hpa hx
        | inr h => exact h
      have hb' : b ∈ t := by
        cases List.mem_cons.mp hb with
        | inl h => rw [h] at hpb; exact absurd hpb hx
        | inr h => exact h
      exact ih hc' a ha' hpa b hb' hpb

/-- In a well-formed table, a member that is the Foreground job for `pid`
makes the foreground-wait condition true. -/
theorem fgCond_of_mem_fg (pid : Nat) (jt : JobTable) (hwf : wfJT jt)
    (j : Job) (hj : j ∈ jt) (hpid : j.pid = pid) (hfg : j.state = JState.FG) :
    fgCond pid jt = true := by
  obtain ⟨hcnt, hnd, hpos⟩ := hwf
  obtain ⟨j0, hfind⟩ : ∃ j0, jt.find? (fun x => x.state == JState.FG) = some j0 := by
    cases hfind : jt.find? (fun x => x.state == JState.FG) with
    | some j0 => exact ⟨j0, rfl⟩
    | none =>
      have := List.find?_eq_none.mp hfind j hj
      simp [hfg] at this
  have hj0mem := List.mem_of_find?_eq_some hfind
  have hj0fg := List.find?_some hfind
  have hjeq : j0 = j :=
    countP_le_one_unique (fun x => x.state == JState.FG) jt hcnt
      j0 hj0mem hj0fg j hj (by simp [hfg])
  have hfgjob : fg_job jt = j0.jid := by simp [fg_job, hfind]
  obtain ⟨j1, hfind2⟩ : ∃ j1, jt.find? (fun x => x.jid == j0.jid) = some j1 := by
    cases hfind2 : jt.find? (fun x => x.jid == j0.jid) with
    | some j1 => exact ⟨j1, rfl⟩
    | none =>
      have := List.find?_eq_none.mp hfind2 j0 hj0mem
      simp at this
  have hj1mem := List.mem_of_find?_eq_some hfind2
  have hj1jid := List.find?_some hfind2
  have hj1eq : j1 = j0 :=
    List.inj_on_of_nodup_map hnd hj1mem hj0mem (by simpa using hj1jid)
  have hgetpid : job_get_pid jt (fg_job jt) = j0.pid := by
    simp [job_get_pid, hfgjob, hfind2, hj1eq]
  have hjid0 : j0.jid ≠ 0 := Nat.pos_iff_ne_zero.mp (hpos j0 hj0mem)
  have hp : j0.pid = pid := by rw [hjeq, hpid]
  unfold fgCond
  rw [hgetpid, hfgjob]
  simp [hjid0, hp]

/-- In a well-formed table where the foreground-wait condition for `pid` is
false, no member is the Foreground job for `pid`. -/
theorem no_fg_of_not_fgCond (pid : Nat) (jt : JobTable) (hwf : wfJT jt)
    (hc : fgCond pid jt = false) :
    (jt.all fun j => !(j.pid == pid && j.state == JState.FG)) = true := by
  rw [List.all_eq_true]
  intro j hj
  by_contra h
  have h' : j.pid = pid ∧ j.state = JState.FG := by
    simpa using h
  have := fgCond_of_mem_fg pid jt hwf j hj h'.1 h'.2
  rw [this] at hc
  cases hc

/-- Setting a job's state to Stopped preserves well-formedness. -/
theorem wf_set_state_st (jt : JobTable) (jid : Nat) (hwf : wfJT jt) :
    wfJT (job_set_state jt jid JState.ST) := by
  obtain ⟨hcnt, hnd, hpos⟩ := hwf
  refine ⟨?_, ?_, ?_⟩
  · unfold job_set_state
    rw [List.countP_map]
    refine le_trans (List.countP_mono_left ?_) hcnt
    intro x _ hx
    by_cases h : x.jid = jid <;> simp [h, Function.comp] at hx ⊢
    all_goals simp_all
  · have hmap : (job_set_state jt jid JState.ST).map Job.jid = jt.map Job.jid := by
      unfold job_set_state
      rw [List.map_map]
      apply List.map_congr_left
      intro x _
      by_cases h : x.jid = jid <;> simp [h]
    rw [hmap]; exact hnd
  · intro j hj
    obtain ⟨x, hx, hxe⟩ := List.mem_map.mp hj
    have : j.jid = x.jid := by
      rw [← hxe]
      by_cases h : x.jid = jid <;> simp [h]
    rw [this]; exact hpos x hx

/-- Deleting a job preserves well-formedness. -/
theorem wf_delete (jt : JobTable) (jid : Nat) (hwf : wfJT jt) :
    wfJT (delete_job jt jid) := by
  obtain ⟨hcnt, hnd, hpos⟩ := hwf
  have hsub : (delete_job jt jid).Sublist jt := List.filter_sublist jt
  refine ⟨le_trans (hsub.countP_le _) hcnt, (hsub.map Job.jid).nodup hnd, ?_⟩
  · intro j hj
    exact hpos j (hsub.subset hj)

/-- One reported status-dispatch step preserves well-formedness.  (A continued
status is never reported under the handler's wait options.) -/
theorem wf_chldStatusUpd (jt : JobTable) (p : Nat) (s : WStatus)
    (hrep : reportedB codeWaitOpts s = true) (hwf : wfJT jt) :
    wfJT (chldStatusUpd jt p s).1 := by
  cases s with
  | stopped sig => exact wf_set_state_st jt _ hwf
  | signaled sig => exact wf_delete jt _ hwf
  | exited code => exact wf_delete jt _ hwf
  | continued => cases hrep

/-- The reap loop preserves well-formedness over any run of reported
statuses. -/
theorem wf_sigchld_reap :
    ∀ (l : List (Nat × WStatus)) (jt : JobTable),
      (∀ x ∈ l, reportedB codeWaitOpts x.2 = true) → wfJT jt →
        wfJT (sigchld_reap jt l).1 := by
  intro l
  induction l with
  | nil => intro jt _ hwf; exact hwf
  | cons hd tl ih =>
    intro jt hrep hwf
    obtain ⟨p, s⟩ := hd
    exact ih _ (fun x hx => hrep x (List.mem_cons_of_mem _ hx))
      (wf_chldStatusUpd jt p s (hrep (p, s) (List.mem_cons_self (p, s) tl)) hwf)

/-- The whole child-status handler preserves well-formedness. -/
theorem wf_sigchld_handler_run (e w : Nat) (jt : JobTable)
    (pending : List (Nat × WStatus)) (hwf : wfJT jt) :
    wfJT (sigchld_handler_run e w jt pending).jt := by
  apply wf_sigchld_reap _ _ _ hwf
  intro x hx
  exact (List.mem_filter.mp hx).2

/-- The interrupt handler leaves the table unchanged. -/
theorem sigint_handler_run_jt (e : Nat) (jt : JobTable) :
    (sigint_handler_run e jt).jt = jt := by
  unfold sigint_handler_run
  by_cases h : fg_job jt ≠ 0 <;> simp [h]

/-- The stop handler leaves the table unchanged. -/
theorem sigtstp_handler_run_jt (e : Nat) (jt : JobTable) :
    (sigtstp_handler_run e jt).jt = jt := by
  unfold sigtstp_handler_run
  by_cases h : fg_job jt ≠ 0 <;> simp [h]

/-- Every delivery preserves well-formedness. -/
theorem wf_applyDelivery (jt : JobTable) (d : Delivery) (hwf : wfJT jt) :
    wfJT (applyDelivery jt d) := by
  cases d with
  | chld pending => exact wf_sigchld_handler_run 0 0 jt pending hwf
  | intr => rw [applyDelivery, sigint_handler_run_jt]; exact hwf
  | tstp => rw [applyDelivery, sigtstp_handler_run_jt]; exact hwf

/-- If the foreground-wait loop returns, the loop condition is false at the
returned table, and well-formedness carried through. -/
theorem fg_wait_loop_spec :
    ∀ (env : List Delivery) (pid : Nat) (jt jtf : JobTable),
      wfJT jt → fg_wait_loop pid env jt = some jtf →
        fgCond pid jtf = false ∧ wfJT jtf := by
  intro env
  induction env with
  | nil =>
    intro pid jt jtf hwf h
    unfold fg_wait_loop at h
    by_cases hc : fgCond pid jt = true
    · simp [hc] at h
    · rw [if_neg hc] at h
      cases h
      exact ⟨Bool.eq_false_iff.mpr hc, hwf⟩
  | cons d env ih =>
    intro pid jt jtf hwf h
    unfold fg_wait_loop at h
    by_cases hc : fgCond pid jt = true
    · rw [if_pos hc] at h
      exact ih pid _ jtf (wf_applyDelivery jt d hwf) h
    · rw [if_neg hc] at h
      cases h
      exact ⟨Bool.eq_false_iff.mpr hc, hwf⟩

/-- The reap-loop trace keeps every job-table access inside a
block/restore bracket and ends with the entry mask installed. -/
theorem sigchld_reap_trace_ok :
    ∀ (l : List (Nat × WStatus)) (jt : JobTable) (b : Bool),
      tracesBlockedOk b b (sigchld_reap jt l).2.2 = true ∧
        finalMask b b (sigchld_reap jt l).2.2 = b := by
  intro l
  induction l with
  | nil => intro jt b; exact ⟨rfl, rfl⟩
  | cons hd tl ih =>
    intro jt b
    obtain ⟨p, s⟩ := hd
    cases s <;>
      simp [sigchld_reap, chldStatusUpd, tracesBlockedOk, finalMask] <;>
      exact ih _ b

/-! Theorems settling the claims. -/

/-- Claim C1: for every external command, the parent's `eval` trace starts by
blocking all signals before the `fork`; the job is registered — as Foreground
for a foreground command, as Background for a background command — before any
event that lets signals be delivered again, and the stretch of the trace
between the `fork` and the registration contains no unblocking event. -/
theorem eval_registers_job_before_unblocking : ∀ n : Nat,
    ((evalExtParentTrace false n).head? = some Event.block) ∧
    ((evalExtParentTrace true n).head? = some Event.block) ∧
    ((beforeUnblock (evalExtParentTrace false n)).contains
        (Event.addJob JState.FG) = true) ∧
    ((beforeUnblock (evalExtParentTrace true n)).contains
        (Event.addJob JState.BG) = true) ∧
    ((afterFork (evalExtParentTrace false n)).contains
        (Event.addJob JState.FG) = true) ∧
    ((afterFork (evalExtParentTrace true n)).contains
        (Event.addJob JState.BG) = true) ∧
    (noUnblock (beforeAdd (afterFork (evalExtParentTrace false n))) = true) ∧
    (noUnblock (beforeAdd (afterFork (evalExtParentTrace true n))) = true) :=
  fun _ => ⟨rfl, rfl, rfl, rfl, rfl, rfl, rfl, rfl⟩

/-- Claim C3: the child-status handler uses `WNOHANG` (it never blocks) and
`WUNTRACED` (stops are reported), reaps every reported pending status change
in one loop, and for each reaped process: a stop sets the job's state to
Stopped and prints the stop notification; a signal termination prints the
termination notification and removes the job; a normal exit removes the job
with no message. -/
theorem sigchld_reaps_all_pending_nonblocking :
    codeWaitOpts.wnohang = true ∧
    (∀ sig, reportedB codeWaitOpts (WStatus.stopped sig) = true) ∧
    (∀ e w jt pending,
      (sigchld_handler_run e w jt pending).jt
          = (sigchld_reap jt (pending.filter fun x => reportedB codeWaitOpts x.2)).1 ∧
      (sigchld_handler_run e w jt pending).out
          = (sigchld_reap jt (pending.filter fun x => reportedB codeWaitOpts x.2)).2.1) ∧
    (∀ e w jt p sig,
      (sigchld_handler_run e w jt [(p, WStatus.stopped sig)]).jt
          = job_set_state jt (job_from_pid jt p) JState.ST ∧
      (sigchld_handler_run e w jt [(p, WStatus.stopped sig)]).out
          = [s!"Job [{job_from_pid jt p}] ({p}) stopped by signal {sig}"]) ∧
    (∀ e w jt p sig,
      (sigchld_handler_run e w jt [(p, WStatus.signaled sig)]).jt
          = delete_job jt (job_from_pid jt p) ∧
      (sigchld_handler_run e w jt [(p, WStatus.signaled sig)]).out
          = [s!"Job [{job_from_pid jt p}] ({p}) terminated by signal {sig}"]) ∧
    (∀ e w jt p code,
      (sigchld_handler_run e w jt [(p, WStatus.exited code)]).jt
          = delete_job jt (job_from_pid jt p) ∧
      (sigchld_handler_run e w jt [(p, WStatus.exited code)]).out = []) :=
  ⟨rfl, fun _ => rfl, fun _ _ _ _ => ⟨rfl, rfl⟩, fun _ _ _ _ _ => ⟨rfl, rfl⟩,
   fun _ _ _ _ _ => ⟨rfl, rfl⟩, fun _ _ _ _ _ => ⟨rfl, rfl⟩⟩

/-- Claim C4 counterexample: with job 1 being the stopped process 42, the
process is continued, yet running the child-status handler leaves the table
unchanged — the job's state stays Stopped and no job is Foreground afterwards,
because `waitpid(-1, ..., WNOHANG | WUNTRACED)` never reports a continued
child. -/
theorem sigchld_continued_leaves_state_cex :
    (sigchld_handler_run 0 10 jtStopped [(42, WStatus.continued)]).jt = jtStopped ∧
    ((sigchld_handler_run 0 10 jtStopped [(42, WStatus.continued)]).jt.all
        fun j => !(j.state == JState.FG)) = true := by
  decide

/-- Claim C4 amended: the handler's dispatch does contain an arm that would
set a continued job's state to Foreground, but the wait options the handler
passes lack `WCONTINUED`, so a continued status is never reported to the reap
loop: on any continued child the handler leaves the job table unchanged and
prints nothing. -/
theorem sigchld_continued_branch_unreachable :
    (∀ jt p, (chldStatusUpd jt p WStatus.continued).1
        = job_set_state jt (job_from_pid jt p) JState.FG) ∧
    codeWaitOpts.wcontinued = false ∧
    reportedB codeWaitOpts WStatus.continued = false ∧
    (∀ e w jt p,
      (sigchld_handler_run e w jt [(p, WStatus.continued)]).jt = jt ∧
      (sigchld_handler_run e w jt [(p, WStatus.continued)]).out = []) :=
  ⟨fun _ _ => rfl, rfl, rfl, fun _ _ _ _ => ⟨rfl, rfl⟩⟩

/-- Claim C5: the terminal-interrupt and terminal-stop handlers forward their
signal to the entire process group of the current foreground job via a
negative process id when a foreground job exists, send nothing when none
exists, and never change the job table. -/
theorem sig_handlers_forward_to_fg_pgroup : ∀ e jt,
    (sigint_handler_run e jt).jt = jt ∧
    (sigtstp_handler_run e jt).jt = jt ∧
    (sigint_handler_run e jt).kills
        = (if fg_job jt ≠ 0
            then [(-(job_get_pid jt (fg_job jt) : Int), SIGINT)] else []) ∧
    (sigtstp_handler_run e jt).kills
        = (if fg_job jt ≠ 0
            then [(-(job_get_pid jt (fg_job jt) : Int), SIGTSTP)] else []) := by
  intro e jt
  unfold sigint_handler_run sigtstp_handler_run
  by_cases h : fg_job jt ≠ 0 <;> simp [h]

/-- Claim C8 counterexample: the permission argument `MODE` of the
output-redirection `open` is not owner-only read/write — it also grants group
and other read access. -/
theorem mode_grants_group_other_read_cex :
    MODE ≠ (S_IRUSR ||| S_IWUSR) ∧ MODE &&& (S_IRGRP ||| S_IROTH) ≠ 0 := by
  decide

/-- Claim C8 amended: output redirection creates or truncates the file
(`O_CREAT | O_TRUNC | O_WRONLY`) with mode 0644: owner read and write, group
and other read but not write, and no execute bits. -/
theorem mode_is_0644 :
    MODE = 420 ∧
    outfile_open_flags = (O_CREAT ||| O_TRUNC ||| O_WRONLY) ∧
    MODE &&& S_IRUSR ≠ 0 ∧ MODE &&& S_IWUSR ≠ 0 ∧
    MODE &&& S_IRGRP ≠ 0 ∧ MODE &&& S_IROTH ≠ 0 ∧
    MODE &&& S_IWGRP = 0 ∧ MODE &&& S_IWOTH = 0 ∧
    MODE &&& 0o111 = 0 := by
  decide

/-- Claim C9 counterexample: an input-redirection `open` failing with
`EISDIR` (21) makes the child exit with status 0 silently — no diagnostic line
at all is printed before `_exit(0)`. -/
theorem child_failure_can_be_silent_cex :
    child_run (some "d") none "prog" (SysRes.err 21) SysRes.ok SysRes.ok
      = ⟨[], some 0, false⟩ := by
  decide

/-- Claim C9 amended: whenever launching an external command fails in the
child — input open, output open, or exec — the child prints the
`No such file or directory` diagnostic when `errno` is ENOENT (2), the
`Permission denied` diagnostic when it is EACCES (13), and nothing for any
other `errno`; in every failure case it exits immediately with status 0
without running the target program, and only a fully successful launch ever
reaches the target. -/
theorem child_failure_exits_zero_with_errno_msgs (e : Nat)
    (h2 : e ≠ 2) (h13 : e ≠ 13) :
    (∀ f ofl p e2 oR eR,
      child_run (some f) ofl p (SysRes.err e2) oR eR
        = ⟨errno_msgs f e2, some 0, false⟩) ∧
    (∀ inf f p e2 eR,
      child_run inf (some f) p SysRes.ok (SysRes.err e2) eR
        = ⟨errno_msgs f e2, some 0, false⟩) ∧
    (∀ inf ofl p e2,
      child_run inf ofl p SysRes.ok SysRes.ok (SysRes.err e2)
        = ⟨errno_msgs p e2, some 0, false⟩) ∧
    (∀ inf ofl p,
      child_run inf ofl p SysRes.ok SysRes.ok SysRes.ok = ⟨[], none, true⟩) ∧
    (∀ f, errno_msgs f 2 = [s!"{f}: No such file or directory"]) ∧
    (∀ f, errno_msgs f 13 = [s!"{f}: Permission denied"]) ∧
    (∀ f, errno_msgs f e = []) := by
  refine ⟨fun f ofl p e2 oR eR => rfl,
          fun inf f p e2 eR => ?_,
          fun inf ofl p e2 => ?_,
          fun inf ofl p => ?_,
          fun f => rfl, fun f => rfl, fun f => ?_⟩
  · cases inf <;> rfl
  · cases inf <;> cases ofl <;> rfl
  · cases inf <;> cases ofl <;> rfl
  · simp [errno_msgs, h2, h13]

/-- Claim C9 amended, witness at `errno` 21. -/
theorem child_failure_exits_zero_with_errno_msgs_witness :
    (∀ f ofl p e2 oR eR,
      child_run (some f) ofl p (SysRes.err e2) oR eR
        = ⟨errno_msgs f e2, some 0, false⟩) ∧
    (∀ inf f p e2 eR,
      child_run inf (some f) p SysRes.ok (SysRes.err e2) eR
        = ⟨errno_msgs f e2, some 0, false⟩) ∧
    (∀ inf ofl p e2,
      child_run inf ofl p SysRes.ok SysRes.ok (SysRes.err e2)
        = ⟨errno_msgs p e2, some 0, false⟩) ∧
    (∀ inf ofl p,
      child_run inf ofl p SysRes.ok SysRes.ok SysRes.ok = ⟨[], none, true⟩) ∧
    (∀ f, errno_msgs f 2 = [s!"{f}: No such file or directory"]) ∧
    (∀ f, errno_msgs f 13 = [s!"{f}: Permission denied"]) ∧
    (∀ f, errno_msgs f 21 = []) :=
  child_failure_exits_zero_with_errno_msgs 21 (by decide) (by decide)

/-- Claim C7 counterexample: `bg 12abc` with the stopped job 1 (process 12)
live.  The argument `12abc` is neither a bare number nor a `%`-prefixed
number, so the claim demands an error message and no state change; instead
the shell resumes job 1: it prints the announcement, sends `SIGCONT` to
process group 12, and moves the job to Background. -/
theorem bgfg_accepts_malformed_argument_cex :
    builtin_bgfg true 2 ['1', '2', 'a', 'b', 'c'] jtPid12
      = { out := ["[1] (12) sleep 5"],
          kills := [(-12, SIGCONT)],
          jt := [⟨1, 12, JState.BG, "sleep 5"⟩], wait := false } ∧
    (builtin_bgfg true 2 ['1', '2', 'a', 'b', 'c'] jtPid12).kills ≠ [] ∧
    (builtin_bgfg true 2 ['1', '2', 'a', 'b', 'c'] jtPid12).jt ≠ jtPid12 := by
  decide

/-- Claim C7 amended: the `bg`/`fg` built-in behaves exactly as the amended
claim's function states — a missing argument or an argument whose FIRST
character is neither a digit nor `%` yields an error message and no state
change; otherwise the argument (the text after the `%` for `%`-arguments) is
parsed as `strtol` parses a base-10 long — optional sign, longest digit run,
clamped to the long range — and truncated to the C int range, and when that
value identifies no live job the command prints `No such job` and changes no
state; otherwise `SIGCONT` is sent to the job's entire process group
(negative pid) and its state is set to Background for `bg` or Foreground for
`fg`, with `fg` alone then entering the foreground-wait protocol. -/
theorem bgfg_matches_amended_spec :
    ∀ isBg argc arg jt,
      builtin_bgfg isBg argc arg jt = bgfg_amended_spec isBg argc arg jt := by
  intro isBg argc arg jt
  unfold builtin_bgfg bgfg_amended_spec classifyBgFgArg
  by_cases h1 : argc = 1
  · simp [h1]
  · simp only [h1, if_false]
    cases arg with
    | nil => rfl
    | cons c r =>
      by_cases hp : c == '%'
      · simp [hp, resolve_bgfg_jid, bgfg_go]
        cases hjob : job_exists_int jt (long_to_int (strtol r)) <;>
          cases isBg <;> simp [hjob]
      · by_cases hd : c.isDigit
        · simp [hp, hd, resolve_bgfg_pid, bgfg_go]
          cases hjob :
              job_exists jt (job_from_pid_int jt (long_to_int (strtol (c :: r)))) <;>
            cases isBg <;> simp [hjob]
        · simp [hp, hd]

/-- Claim C10 counterexample: the pid taken for a digit-led token is NOT its
longest leading numeric prefix — `bg 4294967308` (numeric prefix 4294967308)
resumes the live job of pid 12, because `strtol`'s long is truncated to a C
int, and 4294967308 is 12 modulo `2 ^ 32`.  Likewise the job id of a
`%`-argument is not the numeric prefix after the `%`: `fg %+5` resolves job 5
(the prefix after `%` is empty, value 0), because `strtol` accepts the
leading sign. -/
theorem bgfg_ignores_numeric_prefix_overflow_cex :
    builtin_bgfg true 2 ['4', '2', '9', '4', '9', '6', '7', '3', '0', '8'] jtPid12
      = { out := ["[1] (12) sleep 5"], kills := [(-12, SIGCONT)],
          jt := [⟨1, 12, JState.BG, "sleep 5"⟩], wait := false } ∧
    strtolAux ['4', '2', '9', '4', '9', '6', '7', '3', '0', '8'] 0 = 4294967308 ∧
    long_to_int (strtol ['4', '2', '9', '4', '9', '6', '7', '3', '0', '8']) = 12 ∧
    (12 : Int) ≠ 4294967308 ∧
    builtin_bgfg true 2 ('%' :: ['+', '5']) jtJid5
      = { out := ["[5] (99) sleep 9"], kills := [(-99, SIGCONT)],
          jt := [⟨5, 99, JState.BG, "sleep 9"⟩], wait := false } ∧
    strtolAux ['+', '5'] 0 = 0 := by
  decide

/-- Claim C10 amended: the shape check of `bg`/`fg` looks only at the first
character of the argument: any token whose first character is a digit is
accepted (never rejected as malformed) and resolved through the pid branch;
any token starting with `%` is resolved through the job-id branch on the text
after the `%`.  The pid or job id taken is `strtol`'s value — optional sign,
longest digit run, clamped to the long range — truncated to the C int range:
`12abc` is pid 12, but `4294967308` wraps to pid 12 as well, and `%+5` is job
id 5. -/
theorem bgfg_shape_check_first_char_only (isBg : Bool) (argc : Nat)
    (jt : JobTable) (c : Char) (r : List Char)
    (h1 : argc ≠ 1) (hd : c.isDigit = true) :
    builtin_bgfg isBg argc (c :: r) jt = resolve_bgfg_pid isBg (c :: r) jt ∧
    classifyBgFgArg argc (c :: r)
        = ArgClass.byPid (long_to_int (strtol (c :: r))) ∧
    (∀ rest, builtin_bgfg isBg argc ('%' :: rest) jt
        = resolve_bgfg_jid isBg ('%' :: rest) rest jt ∧
      classifyBgFgArg argc ('%' :: rest)
          = ArgClass.byJid (long_to_int (strtol rest))) ∧
    long_to_int (strtol ['1', '2', 'a', 'b', 'c']) = 12 ∧
    long_to_int (strtol ['4', '2', '9', '4', '9', '6', '7', '3', '0', '8']) = 12 ∧
    long_to_int (strtol ['+', '5']) = 5 := by
  have hp : (c == '%') = false := by
    cases hc : c == '%'
    · rfl
    · exact absurd hd (by simp [beq_iff_eq.mp hc])
  refine ⟨?_, ?_, ?_, by decide, by decide, by decide⟩
  · unfold builtin_bgfg
    simp [h1, hp, hd]
  · unfold classifyBgFgArg
    simp [h1, hp, hd]
  · intro rest
    constructor
    · unfold builtin_bgfg
      simp [h1]
    · unfold classifyBgFgArg
      simp [h1]

/-- Claim C10 amended, witness: `bg 12abc` (token count 2) goes down the pid
branch with pid 12. -/
theorem bgfg_shape_check_first_char_only_witness :
    builtin_bgfg true 2 ('1' :: ['2', 'a', 'b', 'c']) jtPid12
        = resolve_bgfg_pid true ('1' :: ['2', 'a', 'b', 'c']) jtPid12 ∧
    classifyBgFgArg 2 ('1' :: ['2', 'a', 'b', 'c'])
        = ArgClass.byPid (long_to_int (strtol ('1' :: ['2', 'a', 'b', 'c']))) ∧
    (∀ rest, builtin_bgfg true 2 ('%' :: rest) jtPid12
        = resolve_bgfg_jid true ('%' :: rest) rest jtPid12 ∧
      classifyBgFgArg 2 ('%' :: rest)
          = ArgClass.byJid (long_to_int (strtol rest))) ∧
    long_to_int (strtol ['1', '2', 'a', 'b', 'c']) = 12 ∧
    long_to_int (strtol ['4', '2', '9', '4', '9', '6', '7', '3', '0', '8']) = 12 ∧
    long_to_int (strtol ['+', '5']) = 5 :=
  bgfg_shape_check_first_char_only true 2 jtPid12 '1' ['2', 'a', 'b', 'c']
    (by decide) (by decide)

/-- Claim C2: whenever the foreground-wait protocol returns (for any
well-formed starting table, any pid and any sequence of signal deliveries),
the original signal mask has been restored, the loop condition — the
foreground job id is nonzero and still resolves to `pid` — is false at the
returned table, and no job of the returned table is a Foreground job for
`pid`: the watched process has stopped (its job is Stopped) or exited or been
terminated by a signal (its job is gone), never anything earlier.  Each
iteration of the model consumes exactly one delivery of
`sigsuspend(&prev_all)`, the atomic unblock-and-wait primitive. -/
theorem fg_wait_returns_only_after_job_leaves_fg (pid : Nat)
    (env : List Delivery) (jt : JobTable) (prev : Bool)
    (jtf : JobTable) (maskf : Bool) (hwf : wfJT jt)
    (hrun : fg_wait_phase pid env jt prev = some (jtf, maskf)) :
    maskf = prev ∧ fgCond pid jtf = false ∧
      (jtf.all fun j => !(j.pid == pid && j.state == JState.FG)) = true := by
  unfold fg_wait_phase at hrun
  rw [Option.map_eq_some'] at hrun
  obtain ⟨jt', hloop, heq⟩ := hrun
  have hjt : jt' = jtf := congrArg Prod.fst heq
  have hmask : prev = maskf := congrArg Prod.snd heq
  obtain ⟨hcond, hwff⟩ := fg_wait_loop_spec env pid jt jt' hwf hloop
  rw [hjt] at hcond hwff
  exact ⟨hmask.symm, hcond, no_fg_of_not_fgCond pid jtf hwff hcond⟩

/-- Claim C2 witness: waiting on process 42 of the foreground job 1, a single
`SIGCHLD` delivery reporting its exit makes the protocol return with the
mask restored, the condition false and the job gone. -/
theorem fg_wait_returns_only_after_job_leaves_fg_witness :
    true = true ∧ fgCond 42 [] = false ∧
      (([] : JobTable).all fun j => !(j.pid == 42 && j.state == JState.FG)) = true :=
  fg_wait_returns_only_after_job_leaves_fg 42
    [Delivery.chld [(42, WStatus.exited 0)]] jtFG42 true [] true
    (by decide) (by decide)

/-- Claim C6: each of the three handlers returns with `errno` equal to its
value at entry, every job-table access in its trace happens while all signals
are blocked, and the mask installed at entry is restored by the time the
handler returns (for any entry mask `b`). -/
theorem handlers_preserve_errno_and_bracket_accesses :
    ∀ (e w : Nat) (jt : JobTable) (pending : List (Nat × WStatus)) (b : Bool),
      (sigchld_handler_run e w jt pending).errno = e ∧
      (sigint_handler_run e jt).errno = e ∧
      (sigtstp_handler_run e jt).errno = e ∧
      tracesBlockedOk b b (sigchld_handler_run e w jt pending).trace = true ∧
      finalMask b b (sigchld_handler_run e w jt pending).trace = b ∧
      tracesBlockedOk b b (sigint_handler_run e jt).trace = true ∧
      finalMask b b (sigint_handler_run e jt).trace = b ∧
      tracesBlockedOk b b (sigtstp_handler_run e jt).trace = true ∧
      finalMask b b (sigtstp_handler_run e jt).trace = b := by
  intro e w jt pending b
  refine ⟨rfl, ?_, ?_,
          (sigchld_reap_trace_ok _ jt b).1, (sigchld_reap_trace_ok _ jt b).2,
          ?_, ?_, ?_, ?_⟩ <;>
    · simp only [sigint_handler_run, sigtstp_handler_run]
      by_cases h : fg_job jt ≠ 0 <;> simp [h, tracesBlockedOk, finalMask]

end Tsh
